import Mathlib

set_option maxRecDepth 100000

/-!
Verification of the UHF RFID reader protocol engine (Rust crates protocl and api).

The Rust code is shallowly embedded: byte buffers become lists of natural
numbers (each entry a byte value), Rust strings become lists of ASCII codes,
fallible operations return Except, and the USB transport collaborator is
modelled as a pair of finite streams of outcomes (one outcome per write_bulk
call and one event per read_bulk call).  A Rust panic (overflowing u16 shift,
or the explicit panic in the lock pattern builder) is modelled as Option.none.
All definitions are computable and follow src/src/protocol/src/interface.rs,
src/src/protocol/src/types.rs, src/src/api/src/api/lock_pattern_builder.rs and
src/src/api/src/api/uhf_rfid_api.rs.
-/

/-- Decidable equality for Except results, used to evaluate the embedded
operations on concrete inputs. -/
instance {ε α : Type} [DecidableEq ε] [DecidableEq α] : DecidableEq (Except ε α)
  | .ok x, .ok y =>
    if h : x = y then .isTrue (congrArg _ h)
    else .isFalse fun c => h (Except.ok.inj c)
  | .error x, .error y =>
    if h : x = y then .isTrue (congrArg _ h)
    else .isFalse fun c => h (Except.error.inj c)
  | .ok _, .error _ => .isFalse fun c => Except.noConfusion c
  | .error _, .ok _ => .isFalse fun c => Except.noConfusion c

/-- Error enum UhfError from protocol types.rs. -/
inductive UhfError where
  | DeviceNotFound
  | InvalidHandle
  | InvalidParameter (msg : String)
  | Communication (msg : String)
  | Timeout
  | InvalidResponse
deriving DecidableEq, Repr

/-- High-level error enum RfidError from api error.rs; only the constructors
reachable from the modelled operations are included.  The constructor Uhf
models the source constructor that wraps a UhfError value. -/
inductive RfidError where
  | NotConnected
  | Protocol (msg : String)
  | Uhf (e : UhfError)
deriving DecidableEq, Repr

/-- Memory bank enum from types.rs; discriminant values Epc=1, Tid=2, User=3,
Reserved=4 as declared in the source. -/
inductive MemoryBank where
  | Epc
  | Tid
  | User
  | Reserved
deriving DecidableEq, Repr

/-- Numeric discriminant of a MemoryBank value (the Rust value as u8). -/
def MemoryBank.code : MemoryBank → Nat
  | .Epc => 1
  | .Tid => 2
  | .User => 3
  | .Reserved => 4

/-- MemoryBank.to_ascii from types.rs: discriminant plus 48. -/
def MemoryBank.to_ascii (b : MemoryBank) : Nat := b.code + 48

/-- Lockable memory bank enum from types.rs. -/
inductive LockableMemoryBank where
  | User
  | Tid
  | Epc
  | AccessPassword
  | KillPassword
deriving DecidableEq, Repr

/-- Memory locking action enum from types.rs. -/
inductive LockAction where
  | Writeable
  | PermanentlyWriteable
  | SecureWriteable
  | NotWriteable
deriving DecidableEq, Repr

/-- Password locking action enum from types.rs. -/
inductive PasswordLockAction where
  | ReadWriteable
  | PermanentlyReadWriteable
  | SecureReadWriteable
  | NotReadWriteable
deriving DecidableEq, Repr

/-- Inventory result record from types.rs; the epc hex string is kept as a
list of ASCII codes and read_count is the u8 value. -/
structure InventoryResult where
  epc : List Nat
  read_count : Nat
deriving DecidableEq, Repr

namespace LockPatternBuilder

/-- Bit positions (data bit, permanent bit) per lockable bank, the match at
the top of LockPatternBuilder memory_bank. -/
def bankBits : LockableMemoryBank → Nat × Nat
  | .User => (8, 9)
  | .Tid => (6, 7)
  | .Epc => (4, 5)
  | .AccessPassword => (2, 3)
  | .KillPassword => (0, 1)

/-- Left shift of value v by n on u16, as the Rust expression 1 shl n inside
the builder: overflow of the shift amount (n at least 16) is an arithmetic
overflow panic in Rust, modelled as none. -/
def shl16 (v n : Nat) : Option Nat :=
  if n < 16 then some (v * 2 ^ n % 65536) else none

/-- LockPatternBuilder memory_bank from lock_pattern_builder.rs.  Returns the
16-bit lock pattern; none models the u16 shift-overflow panic that the source
hits for the User and Tid banks when apply_mask is true. -/
def memory_bank (bank : LockableMemoryBank) (action : LockAction)
    (apply_mask : Bool) : Option Nat := do
  let bits := bankBits bank
  let d := bits.1
  let pm := bits.2
  let base ← match action with
    | .Writeable => some 0
    | .PermanentlyWriteable => shl16 1 pm
    | .SecureWriteable => shl16 1 d
    | .NotWriteable => do
        let a ← shl16 1 d
        let b ← shl16 1 pm
        some (a ||| b)
  if apply_mask then do
    let a ← shl16 1 (d + 10)
    let b ← shl16 1 (pm + 10)
    some (base ||| (a ||| b))
  else
    some base

/-- LockPatternBuilder password from lock_pattern_builder.rs.  none models the
explicit panic branch for banks other than AccessPassword and KillPassword. -/
def password (bank : LockableMemoryBank) (action : PasswordLockAction)
    (apply_mask : Bool) : Option Nat := do
  let bits ← match bank with
    | .AccessPassword => some ((2 : Nat), (3 : Nat))
    | .KillPassword => some ((0 : Nat), (1 : Nat))
    | _ => none
  let r := bits.1
  let w := bits.2
  let base ← match action with
    | .ReadWriteable => some 0
    | .PermanentlyReadWriteable => shl16 1 w
    | .SecureReadWriteable => shl16 1 r
    | .NotReadWriteable => do
        let a ← shl16 1 r
        let b ← shl16 1 w
        some (a ||| b)
  if apply_mask then do
    let a ← shl16 1 (r + 10)
    let b ← shl16 1 (w + 10)
    some (base ||| (a ||| b))
  else
    some base

end LockPatternBuilder

/-- Interface hex_value from interface.rs: ASCII hex digit of a value below
16. -/
def hex_value (value : Nat) : Nat :=
  if value ≥ 10 then value + 55 else value + 48

/-- Word-count byte used inline by Interface read and write: values of at
least 10 become letters, smaller values decimal digits. -/
def count_byte (r_len : Nat) : Nat :=
  if r_len ≥ 10 then r_len + 55 else r_len + 48

/-- Read command frame built by Interface read (interface.rs lines 150 to
170): the slice of the 256-byte buffer that is actually sent.  address and
r_len are u8 values. -/
def readCommand (memory_bank : MemoryBank) (address r_len : Nat) : List Nat :=
  if address ≥ 0x10 then
    [9, 2, 65, 82, memory_bank.to_ascii, 44,
      hex_value (address / 16), hex_value (address % 16), 44, count_byte r_len]
  else
    [8, 2, 65, 82, memory_bank.to_ascii, 44,
      hex_value address, 44, count_byte r_len]

/-- Decode step of Interface read (interface.rs lines 175 to 189): succeed
when the reassembled response has length at least 6 and byte 4 is the letter
R (82), and then return response bytes from index 5 on, without truncation
(the count-based truncation in the source only affects the debug print). -/
def readDecode (response : List Nat) : Except UhfError (List Nat) :=
  if 6 ≤ response.length ∧ response.getD 4 0 = 82 then
    Except.ok (response.drop 5)
  else
    Except.error UhfError.InvalidResponse

/-- Upper-case ASCII hex digit, as produced by the Rust format specifier 04X. -/
def hexUpper (v : Nat) : Nat :=
  if v ≥ 10 then v + 55 else v + 48

/-- Rendering of a u16 with the Rust format string pattern 04X: exactly four
upper-case hex digits for any value below 65536 (the argument is reduced mod
65536 as a u16). -/
def format04X (p : Nat) : List Nat :=
  [hexUpper (p % 65536 / 4096), hexUpper (p % 4096 / 256),
    hexUpper (p % 256 / 16), hexUpper (p % 16)]

/-- Model of the Rust slice-to-array conversion try_into targeting an array
of 6 bytes: succeeds exactly when the slice has length 6. -/
def tryInto6 (l : List Nat) : Option (List Nat) :=
  if l.length = 6 then some l else none

/-- Lock command frame built by Interface lock_memory (interface.rs lines 338
to 343) from a 6-byte ASCII lock setting. -/
def lockFrame (lock_setting : List Nat) : List Nat :=
  [10, 2, 65, 76] ++ lock_setting

/-- UhfRfidApi lock_memory_raw from uhf_rfid_api.rs: format the pattern with
04X, convert the resulting bytes into a 6-byte array, and hand the lock frame
to the transport.  The value returned in the ok case is the frame that
reaches the transport.  The connection flag models usb_device.is_connected,
checked once inside get_interface and once again before sending. -/
def lock_memory_raw (connected : Bool) (pattern : Nat) :
    Except RfidError (List Nat) :=
  if connected = false then Except.error RfidError.NotConnected
  else
    match tryInto6 (format04X pattern) with
    | none => Except.error (RfidError.Protocol "Invalid lock pattern")
    | some pattern_bytes =>
        if connected = false then Except.error RfidError.NotConnected
        else Except.ok (lockFrame pattern_bytes)

/-- UhfRfidApi lock_memory_bank from uhf_rfid_api.rs: builds the masked
pattern for the bank and action and defers to lock_memory_raw; none models a
panic escaping from the builder. -/
def lock_memory_bank (connected : Bool) (bank : LockableMemoryBank)
    (action : LockAction) : Option (Except RfidError (List Nat)) :=
  (LockPatternBuilder.memory_bank bank action true).map (lock_memory_raw connected)

/-- UhfRfidApi lock_password from uhf_rfid_api.rs: rejects banks other than
AccessPassword and KillPassword before invoking the builder; none models a
panic escaping from the builder. -/
def lock_password (connected : Bool) (bank : LockableMemoryBank)
    (action : PasswordLockAction) : Option (Except RfidError (List Nat)) :=
  if bank ≠ LockableMemoryBank.AccessPassword ∧
      bank ≠ LockableMemoryBank.KillPassword then
    some (Except.error (RfidError.Protocol
      "Only Access and Kill passwords can be locked with this method"))
  else
    match LockPatternBuilder.password bank action true with
    | none => none
    | some p => some (lock_memory_raw connected p)

/-- Outcome of one read_bulk call on the transport collaborator: either a
chunk of bytes actually read (length at most 64; the 64-byte buffer is zero
initialised, so a short read leaves zeros behind) together with a flag telling
whether the 2-second response timeout had elapsed when the chunk arrived, or a
transport error. -/
inductive ReadEvent where
  | ok (bytes : List Nat) (elapsed : Bool)
  | err (e : UhfError)
deriving DecidableEq, Repr

/-- Transport collaborator state: one outcome per write_bulk call (the number
of bytes written) and one event per read_bulk call.  An exhausted stream
models a device that never answers again, which the blocking transport
reports as a timeout. -/
structure DevState where
  writes : List (Except UhfError Nat)
  reads : List ReadEvent
deriving DecidableEq, Repr

/-- Loop body of Interface read_response (interface.rs lines 76 to 105):
append the bytes of each chunk, stop when the first buffer byte is not the
continuation sentinel 63 or the timeout has elapsed, stop when fewer than 64
bytes were read, and surface any transport error.  Returns the accumulated
response together with the unconsumed read events. -/
def readLoopSt : List ReadEvent → List Nat →
    Except UhfError (List Nat) × List ReadEvent
  | [], _ => (Except.error UhfError.Timeout, [])
  | ReadEvent.err e :: rest, _ => (Except.error e, rest)
  | ReadEvent.ok bytes elapsed :: rest, acc =>
    let acc2 := acc ++ bytes
    if bytes.headD 0 ≠ 63 ∨ elapsed = true then (Except.ok acc2, rest)
    else if bytes.length < 64 then (Except.ok acc2, rest)
    else readLoopSt rest acc2

/-- Interface read_response from interface.rs: run the chunk loop and fail
with InvalidResponse when the loop exits with an empty buffer. -/
def read_response_st (st : DevState) : Except UhfError (List Nat) × DevState :=
  match readLoopSt st.reads [] with
  | (Except.ok acc, rest) =>
    (if acc = [] then Except.error UhfError.InvalidResponse else Except.ok acc,
      ⟨st.writes, rest⟩)
  | (Except.error e, rest) => (Except.error e, ⟨st.writes, rest⟩)

/-- Zero padding of an outgoing chunk to exactly 64 bytes, the resize call in
Interface send_command. -/
def padChunk (c : List Nat) : List Nat := c ++ List.replicate (64 - c.length) 0

/-- Loop of Interface send_command (interface.rs lines 44 to 66) phrased over
the remaining bytes: each iteration pads the next 64-byte slice, overwrites
its first byte with 130 when the total payload exceeds 64 bytes and more
bytes follow, with 2 when the total exceeds 64 bytes and this is the last
chunk, and leaves it unchanged otherwise.  The fuel argument bounds the
number of iterations; fuel equal to the remaining length always suffices
because each iteration consumes at least one byte. -/
def sendChunksGo (totalLen : Nat) : Nat → List Nat → List (List Nat)
  | 0, _ => []
  | fuel + 1, remaining =>
    if remaining = [] then []
    else
      let base := padChunk (remaining.take 64)
      let chunk :=
        if 64 < totalLen ∧ 64 < remaining.length then base.set 0 130
        else if 64 < totalLen then base.set 0 2
        else base
      chunk :: sendChunksGo totalLen fuel (remaining.drop 64)

/-- Interface send_command as the list of padded 64-byte chunks written to
the device, in order. -/
def send_command (data : List Nat) : List (List Nat) :=
  sendChunksGo data.length data.length data

/-- Write the chunks one by one, consuming one write outcome per chunk and
stopping at the first transport error, which send_command propagates. -/
def writeChunks : List (List Nat) → List (Except UhfError Nat) →
    Except UhfError Unit × List (Except UhfError Nat)
  | [], ws => (Except.ok (), ws)
  | _ :: _, [] => (Except.error UhfError.Timeout, [])
  | _ :: _, Except.error e :: ws => (Except.error e, ws)
  | _ :: cs, Except.ok _ :: ws => writeChunks cs ws

/-- Sending one command through the transport state: split into chunks and
write them in order. -/
def sendCmdSt (data : List Nat) (st : DevState) :
    Except UhfError Unit × DevState :=
  let r := writeChunks (send_command data) st.writes
  (r.1, ⟨r.2, st.reads⟩)

/-- Lower-case ASCII hex digit, as produced by the Rust hex encode function. -/
def hexLower (v : Nat) : Nat :=
  if v ≥ 10 then v + 87 else v + 48

/-- Lower-case hex encoding of a byte buffer as a list of ASCII codes, two
digits per byte, the hex encode call in get_epc_list_raw. -/
def hexEncode : List Nat → List Nat
  | [] => []
  | b :: rest => hexLower (b / 16) :: hexLower (b % 16) :: hexEncode rest

/-- All-zero sentinel string compared against in get_epc_list_raw
(interface.rs line 397), as ASCII codes: the digits 04025591 followed by 39
zero characters, 47 characters in total. -/
def sentinelCodes : List Nat :=
  [48, 52, 48, 50, 53, 53, 57, 49] ++ List.replicate 39 48

/-- Truncation of the hex-encoded poll response in get_epc_list_raw: the
first 47 characters when there are at least 47, the whole string otherwise. -/
def shortHex (resp : List Nat) : List Nat :=
  let h := hexEncode resp
  if 47 ≤ h.length then h.take 47 else h

/-- Fixed start-inventory command frame from get_epc_list_raw. -/
def startCmd : List Nat := [3, 2, 85, 128]

/-- Fixed follow-up poll command frame from get_epc_list_raw. -/
def followupCmd : List Nat := [3, 2, 85, 145]

/-- Poll loop of get_epc_list_raw (interface.rs lines 381 to 403): at most n
iterations, each sending the follow-up command and reading a response.  A
failed send, a read error or a response shorter than 5 bytes stops the loop
with the identifiers accumulated so far.  A response of at least 5 bytes is
hex encoded, truncated to 47 characters, and recorded unless it equals the
sentinel.  The last component counts the polls actually attempted. -/
def pollLoop : Nat → DevState → List (List Nat) →
    List (List Nat) × DevState × Nat
  | 0, st, acc => (acc, st, 0)
  | n + 1, st, acc =>
    match sendCmdSt followupCmd st with
    | (Except.error _, st1) => (acc, st1, 1)
    | (Except.ok _, st1) =>
      match read_response_st st1 with
      | (Except.ok resp, st2) =>
        if 5 ≤ resp.length then
          let s := shortHex resp
          let acc2 := if s ≠ sentinelCodes then acc ++ [s] else acc
          let r := pollLoop n st2 acc2
          (r.1, r.2.1, r.2.2 + 1)
        else (acc, st2, 1)
      | (Except.error _, st2) => (acc, st2, 1)

/-- Interface get_epc_list_raw from interface.rs: send the start command and
read one acknowledgement, both propagating errors; then run up to 10 polls
and return the recorded identifiers as a success.  The last component counts
the polls attempted after the start command. -/
def get_epc_list_raw (st : DevState) :
    Except UhfError (List (List Nat)) × DevState × Nat :=
  match sendCmdSt startCmd st with
  | (Except.error e, st1) => (Except.error e, st1, 0)
  | (Except.ok _, st1) =>
    match read_response_st st1 with
    | (Except.error e, st2) => (Except.error e, st2, 0)
    | (Except.ok _, st2) =>
      let r := pollLoop 10 st2 []
      (Except.ok r.1, r.2.1, r.2.2)

/-- Tag-record construction step of UhfRfidApi inventory: the u8 conversion
of the tag count fails with a Protocol error above 255, and otherwise each
identifier is paired with the total count as its read_count. -/
def inventoryFrom (epc_list : List (List Nat)) :
    Except RfidError (List InventoryResult) :=
  if 255 < epc_list.length then
    Except.error (RfidError.Protocol "Too many tags in one inventory")
  else
    Except.ok (epc_list.map fun epc => ⟨epc, epc_list.length⟩)

/-- UhfRfidApi inventory from uhf_rfid_api.rs: check the connection, run the
raw EPC scan (wrapping protocol errors), and build the tag records. -/
def inventory (connected : Bool) (st : DevState) :
    Except RfidError (List InventoryResult) :=
  if connected = false then Except.error RfidError.NotConnected
  else
    match (get_epc_list_raw st).1 with
    | Except.error e => Except.error (RfidError.Uhf e)
    | Except.ok epc_list => inventoryFrom epc_list

/-- Canonical sentinel poll response: the bytes 4, 2, 85, 145 followed by 20
zero bytes, whose truncated hex encoding is exactly the sentinel string. -/
def sentinelResp : List Nat := [4, 2, 85, 145] ++ List.replicate 20 0

/-- Mocked device for the sentinel scan: every write succeeds, the first read
acknowledges the start command, and the next ten reads all return the
sentinel response. -/
def sentinelDevice : DevState :=
  ⟨List.replicate 11 (Except.ok 64),
    ReadEvent.ok [8, 2] false :: List.replicate 10 (ReadEvent.ok sentinelResp false)⟩

/-- Bytes carried by a read event; an error event carries none. -/
def evBytes : ReadEvent → List Nat
  | ReadEvent.ok bytes _ => bytes
  | ReadEvent.err _ => []

/-- Whether a read event is a successful chunk. -/
def isOkEv : ReadEvent → Bool
  | ReadEvent.ok _ _ => true
  | ReadEvent.err _ => false

/-- Interface read from interface.rs as the full pipeline: encode the
command, send it, reassemble the response and decode it. -/
def read_op (st : DevState) (memory_bank : MemoryBank) (address r_len : Nat) :
    Except UhfError (List Nat) :=
  match sendCmdSt (readCommand memory_bank address r_len) st with
  | (Except.error e, _) => Except.error e
  | (Except.ok _, st1) =>
    match read_response_st st1 with
    | (Except.error e, _) => Except.error e
    | (Except.ok resp, _) => readDecode resp


/-- C1 (divergence witness): for a connected device, lock_memory_raw fails
with the Protocol error Invalid lock pattern for every pattern value, because
the 4-character hex rendering can never convert into a 6-byte array; no lock
frame ever reaches the transport. -/
theorem c1_lock_memory_raw_always_fails (pattern : Nat) :
    lock_memory_raw true pattern =
      Except.error (RfidError.Protocol "Invalid lock pattern") := by
  simp [lock_memory_raw, tryInto6, format04X]

/-- C2 (divergence witness): with a device answering the 13-byte response
8, 2, 0, 0, 82, 1, 2, 3, 4, 5, 6, 7, 8 to a one-word read, the call succeeds
and returns all 8 bytes after index 4, not the 4-byte truncation to
count times 4 that the claim states. -/
theorem c2_read_payload_untruncated :
    read_op ⟨[Except.ok 64],
        [ReadEvent.ok [8, 2, 0, 0, 82, 1, 2, 3, 4, 5, 6, 7, 8] false]⟩
        MemoryBank.Epc 0 1
      = Except.ok [1, 2, 3, 4, 5, 6, 7, 8] ∧
    (([8, 2, 0, 0, 82, 1, 2, 3, 4, 5, 6, 7, 8] : List Nat).drop 5).take (1 * 4)
      = [1, 2, 3, 4] ∧
    ([1, 2, 3, 4, 5, 6, 7, 8] : List Nat) ≠ [1, 2, 3, 4] := by decide

/-- C3 (counterexample): the masked NotWriteable pattern for the EPC bank is
0xC030, not 0x3030 as the claim states. -/
theorem c3_counterexample :
    LockPatternBuilder.memory_bank LockableMemoryBank.Epc
        LockAction.NotWriteable true = some 0xC030 ∧
    LockPatternBuilder.memory_bank LockableMemoryBank.Epc
        LockAction.NotWriteable true ≠ some 0x3030 := by decide

/-- C3 (amended): the unmasked Writeable pattern for the EPC bank is 0, and
the masked NotWriteable pattern for the EPC bank sets exactly bits 4, 5, 14
and 15 of the 16-bit word, hence equals 0xC030. -/
theorem c3_lock_pattern_epc :
    LockPatternBuilder.memory_bank LockableMemoryBank.Epc
        LockAction.Writeable false = some 0 ∧
    LockPatternBuilder.memory_bank LockableMemoryBank.Epc
        LockAction.NotWriteable true = some 0xC030 ∧
    ∀ i, i < 16 →
      (Nat.testBit ((LockPatternBuilder.memory_bank LockableMemoryBank.Epc
          LockAction.NotWriteable true).getD 0) i = true ↔
        (i = 4 ∨ i = 5 ∨ i = 14 ∨ i = 15)) := by decide

/-- Witness for c3_lock_pattern_epc: bit 14 of the masked EPC NotWriteable
pattern is set. -/
theorem c3_lock_pattern_epc_witness :
    Nat.testBit ((LockPatternBuilder.memory_bank LockableMemoryBank.Epc
        LockAction.NotWriteable true).getD 0) 14 = true :=
  (c3_lock_pattern_epc.2.2 14 (by decide)).mpr (by decide)

/-- C6: read-command encoding.  Addresses up to 15 yield a 9-byte frame with
declared length 8 and a single hex address digit; addresses from 16 to 255
yield a 10-byte frame with declared length 9 and two hex address digits; the
word-count byte is 48 plus w for w up to 9 and w plus 55 for w from 10 to
15. -/
theorem c6_read_command_encoding :
    (∀ b A w, A ≤ 15 →
      readCommand b A w =
        [8, 2, 65, 82, b.to_ascii, 44, hex_value A, 44, count_byte w] ∧
      (readCommand b A w).length = 9 ∧ (readCommand b A w).headD 0 = 8) ∧
    (∀ b A w, 16 ≤ A → A ≤ 255 →
      readCommand b A w =
        [9, 2, 65, 82, b.to_ascii, 44, hex_value (A / 16), hex_value (A % 16),
          44, count_byte w] ∧
      (readCommand b A w).length = 10 ∧ (readCommand b A w).headD 0 = 9) ∧
    (∀ w, w ≤ 9 → count_byte w = 48 + w) ∧
    (∀ w, 10 ≤ w → w ≤ 15 → count_byte w = w + 55) := by
  refine ⟨?_, ?_, ?_, ?_⟩
  · intro b A w h
    have hA : ¬ A ≥ 0x10 := by omega
    simp [readCommand, hA]
  · intro b A w h _
    have hA : A ≥ 0x10 := by omega
    simp [readCommand, hA]
  · intro w h
    have hw : ¬ w ≥ 10 := by omega
    simp [count_byte, hw]
    omega
  · intro w h _
    simp [count_byte, h]

/-- Witness for c6_read_command_encoding: the frame for the EPC bank at
address 5 reading 3 words. -/
theorem c6_read_command_encoding_witness :
    readCommand MemoryBank.Epc 5 3 =
      [8, 2, 65, 82, MemoryBank.Epc.to_ascii, 44, hex_value 5, 44,
        count_byte 3] :=
  (c6_read_command_encoding.1 MemoryBank.Epc 5 3 (by decide)).1

/-- C9: the builder password function maps every bank other than
AccessPassword and KillPassword to its panic branch, lock_password answers
such banks with a Protocol error before invoking the builder, and for every
bank and action lock_password never reaches the panic branch. -/
theorem c9_password_panic_unreachable :
    (∀ bank action m, bank ≠ LockableMemoryBank.AccessPassword →
      bank ≠ LockableMemoryBank.KillPassword →
      LockPatternBuilder.password bank action m = none) ∧
    (∀ bank action m, (bank = LockableMemoryBank.AccessPassword ∨
        bank = LockableMemoryBank.KillPassword) →
      (LockPatternBuilder.password bank action m).isSome = true) ∧
    (∀ connected bank action, bank ≠ LockableMemoryBank.AccessPassword →
      bank ≠ LockableMemoryBank.KillPassword →
      lock_password connected bank action =
        some (Except.error (RfidError.Protocol
          "Only Access and Kill passwords can be locked with this method"))) ∧
    (∀ connected bank action,
      (lock_password connected bank action).isSome = true) := by
  refine ⟨?_, ?_, ?_, ?_⟩
  · intro bank action m h1 h2
    cases bank
    · rfl
    · rfl
    · rfl
    · exact absurd rfl h1
    · exact absurd rfl h2
  · intro bank action m h
    rcases h with h | h <;> subst h <;> cases action <;> cases m <;> decide
  · intro connected bank action h1 h2
    cases bank
    · rfl
    · rfl
    · rfl
    · exact absurd rfl h1
    · exact absurd rfl h2
  · intro connected bank action
    cases bank <;> cases action <;> cases connected <;> decide

/-- Witness for c9_password_panic_unreachable: locking the User bank through
lock_password is rejected with the Protocol error. -/
theorem c9_password_panic_unreachable_witness :
    lock_password true LockableMemoryBank.User PasswordLockAction.ReadWriteable =
      some (Except.error (RfidError.Protocol
        "Only Access and Kill passwords can be locked with this method")) :=
  c9_password_panic_unreachable.2.2.1 true LockableMemoryBank.User
    PasswordLockAction.ReadWriteable (by decide) (by decide)

/-- C10: every successful inventory call returns records whose read_count all
equal the total number of records of that call, and the record construction
fails with the Protocol error when more than 255 identifiers accumulate. -/
theorem c10_inventory_read_count :
    (∀ st l, inventory true st = Except.ok l →
      ∀ r ∈ l, r.read_count = l.length) ∧
    (∀ epc_list : List (List Nat), 255 < epc_list.length →
      inventoryFrom epc_list =
        Except.error (RfidError.Protocol "Too many tags in one inventory")) := by
  constructor
  · intro st l h
    simp only [inventory] at h
    rw [if_neg (by simp)] at h
    cases hg : (get_epc_list_raw st).1 with
    | error e => rw [hg] at h; exact absurd h (by simp)
    | ok epcs =>
      rw [hg] at h
      simp only [inventoryFrom] at h
      by_cases hlen : 255 < epcs.length
      · rw [if_pos hlen] at h; exact absurd h (by simp)
      · rw [if_neg hlen] at h
        have hl : l = epcs.map fun epc => InventoryResult.mk epc epcs.length := by
          injection h with h
          exact h.symm
        subst hl
        intro r hr
        rcases List.mem_map.mp hr with ⟨epc, _, rfl⟩
        simp
  · intro epcs h
    simp only [inventoryFrom, if_pos h]

/-- Witness for c10_inventory_read_count: 256 accumulated identifiers produce
the Protocol error. -/
theorem c10_inventory_read_count_witness :
    inventoryFrom (List.replicate 256 ([] : List Nat)) =
      Except.error (RfidError.Protocol "Too many tags in one inventory") :=
  c10_inventory_read_count.2 (List.replicate 256 ([] : List Nat)) (by simp)

/-- Helper: headD of a list after setting index 0 on a nonempty list. -/
theorem headD_set_zero (l : List Nat) (v : Nat) (h : l ≠ []) :
    ((l.set 0 v).headD 0) = v := by
  cases l with
  | nil => exact absurd rfl h
  | cons a t => rfl

/-- Helper: a successful run of the read-response loop consumes a prefix of
successful read events and returns the accumulator followed by the
concatenation, in order, of exactly the bytes of that prefix. -/
theorem readLoopSt_concat : ∀ (evs : List ReadEvent) (acc r : List Nat)
    (rest : List ReadEvent), readLoopSt evs acc = (Except.ok r, rest) →
    ∃ n, n ≤ evs.length ∧ rest = evs.drop n ∧
      (∀ ev ∈ evs.take n, isOkEv ev = true) ∧
      r = acc ++ ((evs.take n).map evBytes).flatten := by
  intro evs
  induction evs with
  | nil =>
    intro acc r rest h
    simp [readLoopSt] at h
  | cons ev rest0 ih =>
    intro acc r rest h
    cases ev with
    | err e => simp [readLoopSt] at h
    | ok bytes elapsed =>
      simp only [readLoopSt] at h
      by_cases h1 : bytes.headD 0 ≠ 63 ∨ elapsed = true
      · rw [if_pos h1] at h
        simp only [Prod.mk.injEq] at h
        obtain ⟨ha, hb⟩ := h
        injection ha with ha
        refine ⟨1, by simp, by simpa using hb.symm, ?_, ?_⟩
        · intro x hx
          simp only [List.take_succ_cons, List.take_zero,
            List.mem_singleton] at hx
          subst hx
          rfl
        · simp [← ha, evBytes]
      · rw [if_neg h1] at h
        by_cases h2 : bytes.length < 64
        · rw [if_pos h2] at h
          simp only [Prod.mk.injEq] at h
          obtain ⟨ha, hb⟩ := h
          injection ha with ha
          refine ⟨1, by simp, by simpa using hb.symm, ?_, ?_⟩
          · intro x hx
            simp only [List.take_succ_cons, List.take_zero,
              List.mem_singleton] at hx
            subst hx
            rfl
          · simp [← ha, evBytes]
        · rw [if_neg h2] at h
          obtain ⟨n, hn, hrest, hok, hr⟩ := ih (acc ++ bytes) r rest h
          refine ⟨n + 1, by simpa using hn, by simpa using hrest, ?_, ?_⟩
          · intro x hx
            simp only [List.take_succ_cons] at hx
            rcases List.mem_cons.mp hx with rfl | hx
            · rfl
            · exact hok x hx
          · simp [hr, evBytes, List.append_assoc]

/-- C4: the response loop stops after a chunk whose first byte differs from
63 even when 64 bytes were read, and after any chunk shorter than 64 bytes;
read_response fails with Timeout when no chunk arrives (empty stream or a
timing-out read), fails with InvalidResponse when the loop exits with an
empty buffer, and otherwise returns exactly the concatenation, in order, of
the bytes of the consumed chunks. -/
theorem c4_read_response_reassembly :
    (∀ (bytes : List Nat) elapsed rest acc, bytes.headD 0 ≠ 63 →
      readLoopSt (ReadEvent.ok bytes elapsed :: rest) acc =
        (Except.ok (acc ++ bytes), rest)) ∧
    (∀ (bytes : List Nat) elapsed rest acc, bytes.length < 64 →
      readLoopSt (ReadEvent.ok bytes elapsed :: rest) acc =
        (Except.ok (acc ++ bytes), rest)) ∧
    (∀ writes, (read_response_st ⟨writes, []⟩).1 =
      Except.error UhfError.Timeout) ∧
    (∀ writes rest,
      (read_response_st ⟨writes, ReadEvent.err UhfError.Timeout :: rest⟩).1 =
        Except.error UhfError.Timeout) ∧
    (∀ st rest, readLoopSt st.reads [] = (Except.ok [], rest) →
      (read_response_st st).1 = Except.error UhfError.InvalidResponse) ∧
    (∀ st resp, (read_response_st st).1 = Except.ok resp →
      ∃ n, n ≤ st.reads.length ∧ (∀ ev ∈ st.reads.take n, isOkEv ev = true) ∧
        resp = ((st.reads.take n).map evBytes).flatten) := by
  refine ⟨?_, ?_, ?_, ?_, ?_, ?_⟩
  · intro bytes elapsed rest acc h
    simp only [readLoopSt]
    rw [if_pos (Or.inl h)]
  · intro bytes elapsed rest acc h
    simp only [readLoopSt]
    by_cases h1 : bytes.headD 0 ≠ 63 ∨ elapsed = true
    · rw [if_pos h1]
    · rw [if_neg h1, if_pos h]
  · intro writes
    simp [read_response_st, readLoopSt]
  · intro writes rest
    simp [read_response_st, readLoopSt]
  · intro st rest h
    simp [read_response_st, h]
  · intro st resp h
    simp only [read_response_st] at h
    rcases hl : readLoopSt st.reads [] with ⟨res, rest⟩
    rw [hl] at h
    cases res with
    | error e =>
      dsimp only at h
      exact absurd h (by simp)
    | ok acc =>
      dsimp only at h
      by_cases hacc : acc = []
      · rw [if_pos hacc] at h
        exact absurd h (by simp)
      · rw [if_neg hacc] at h
        injection h with h
        obtain ⟨n, hn, _, hok, hr⟩ := readLoopSt_concat st.reads [] acc rest hl
        exact ⟨n, hn, hok, by simpa [h] using hr⟩

/-- Witness for c4_read_response_reassembly: a single 1-byte chunk whose
first byte is 5 stops the loop immediately. -/
theorem c4_read_response_reassembly_witness :
    readLoopSt [ReadEvent.ok [5] false] [] =
      (Except.ok (([] : List Nat) ++ [5]), []) :=
  c4_read_response_reassembly.1 [5] false [] [] (by decide)

/-- Helper: the chunk loop produces nothing once the remaining bytes are
exhausted. -/
theorem sendChunksGo_nil (tl fuel : Nat) : sendChunksGo tl fuel [] = [] := by
  cases fuel <;> simp [sendChunksGo]

/-- Helper: a chunk of at most 64 bytes pads to exactly 64 bytes. -/
theorem padChunk_length (c : List Nat) (h : c.length ≤ 64) :
    (padChunk c).length = 64 := by
  simp only [padChunk, List.length_append, List.length_replicate]
  omega

/-- Helper: a padded chunk is never empty. -/
theorem padChunk_ne_nil (c : List Nat) : padChunk c ≠ [] := by
  intro h
  have := congrArg List.length h
  simp only [padChunk, List.length_append, List.length_replicate,
    List.length_nil] at this
  omega

/-- Helper: number of chunks produced by the send loop. -/
theorem sendChunksGo_length : ∀ (fuel : Nat) (rem : List Nat) (tl : Nat),
    rem.length ≤ fuel →
    (sendChunksGo tl fuel rem).length = (rem.length + 63) / 64 := by
  intro fuel
  induction fuel with
  | zero =>
    intro rem tl h
    have : rem = [] := List.eq_nil_of_length_eq_zero (by omega)
    subst this
    simp [sendChunksGo]
  | succ f ih =>
    intro rem tl h
    by_cases hrem : rem = []
    · subst hrem
      simp [sendChunksGo]
    · have hpos : 1 ≤ rem.length := List.length_pos.mpr hrem
      simp only [sendChunksGo, if_neg hrem, List.length_cons]
      rw [ih (rem.drop 64) tl (by simp; omega)]
      simp only [List.length_drop]
      omega

/-- Helper: every chunk produced by the send loop has exactly 64 bytes. -/
theorem sendChunksGo_mem_length : ∀ (fuel : Nat) (rem : List Nat) (tl : Nat)
    (c : List Nat), c ∈ sendChunksGo tl fuel rem → c.length = 64 := by
  intro fuel
  induction fuel with
  | zero =>
    intro rem tl c hc
    simp [sendChunksGo] at hc
  | succ f ih =>
    intro rem tl c hc
    by_cases hrem : rem = []
    · subst hrem
      simp [sendChunksGo] at hc
    · simp only [sendChunksGo, if_neg hrem] at hc
      have htake : (rem.take 64).length ≤ 64 := by
        simp [List.length_take]
      rcases List.mem_cons.mp hc with rfl | hc
      · split_ifs <;>
          simp [List.length_set, padChunk_length (rem.take 64) htake]
      · exact ih (rem.drop 64) tl c hc

/-- Helper: first bytes of the chunks when the total payload exceeds 64
bytes: every chunk but the last starts with 130, the last with 2. -/
theorem sendChunksGo_heads : ∀ (fuel : Nat) (rem : List Nat) (tl : Nat),
    rem.length ≤ fuel → rem ≠ [] → 64 < tl →
    (sendChunksGo tl fuel rem).map (fun c => c.headD 0) =
      List.replicate ((rem.length + 63) / 64 - 1) 130 ++ [2] := by
  intro fuel
  induction fuel with
  | zero =>
    intro rem tl h hne _
    exact absurd (List.eq_nil_of_length_eq_zero (by omega)) hne
  | succ f ih =>
    intro rem tl h hne htl
    have hpos : 1 ≤ rem.length := List.length_pos.mpr hne
    simp only [sendChunksGo, if_neg hne]
    by_cases hlong : 64 < rem.length
    · rw [if_pos ⟨htl, hlong⟩]
      have hdne : rem.drop 64 ≠ [] := by
        intro hh
        have := congrArg List.length hh
        simp only [List.length_drop, List.length_nil] at this
        omega
      have hdlen : (rem.drop 64).length ≤ f := by
        simp only [List.length_drop]
        omega
      rw [List.map_cons, ih (rem.drop 64) tl hdlen hdne htl,
        headD_set_zero _ _ (padChunk_ne_nil _)]
      have hcount : (rem.length + 63) / 64 - 1 =
          ((rem.drop 64).length + 63) / 64 - 1 + 1 := by
        simp only [List.length_drop]
        omega
      rw [hcount, List.replicate_succ, List.cons_append]
    · rw [if_neg (fun hc => hlong hc.2), if_pos htl]
      have hd : rem.drop 64 = [] := by
        apply List.eq_nil_of_length_eq_zero
        simp only [List.length_drop]
        omega
      rw [hd, sendChunksGo_nil]
      have hcount : (rem.length + 63) / 64 - 1 = 0 := by omega
      rw [hcount]
      simp only [List.map_cons, List.map_nil, List.replicate_zero,
        List.nil_append]
      rw [headD_set_zero _ _ (padChunk_ne_nil _)]

/-- C5 (counterexample): an empty payload is sent as zero chunks, not as one
padded chunk. -/
theorem c5_counterexample :
    send_command ([] : List Nat) = [] ∧
    (send_command ([] : List Nat)).length ≠ 1 := by decide

/-- C5 (amended): every chunk is exactly 64 bytes; when the payload exceeds
64 bytes every chunk but the last starts with 130 and the last starts with 2;
a 130-byte payload gives exactly 3 chunks with first bytes 130, 130, 2 and
192 padded bytes in total; and a nonempty payload of at most 64 bytes is sent
as a single zero-padded chunk whose first byte is unmodified. -/
theorem c5_send_chunking :
    (∀ (data c : List Nat), c ∈ send_command data → c.length = 64) ∧
    (∀ data : List Nat, 64 < data.length →
      (send_command data).map (fun c => c.headD 0) =
        List.replicate ((data.length + 63) / 64 - 1) 130 ++ [2]) ∧
    (∀ data : List Nat, data.length = 130 →
      (send_command data).length = 3 ∧
      (send_command data).map (fun c => c.headD 0) = [130, 130, 2] ∧
      ((send_command data).map List.length).sum = 192) ∧
    (∀ data : List Nat, data ≠ [] → data.length ≤ 64 →
      send_command data = [padChunk data] ∧
      (padChunk data).headD 0 = data.headD 0) := by
  have hsmall : ∀ data : List Nat, data ≠ [] → data.length ≤ 64 →
      send_command data = [padChunk data] := by
    intro data hne hlen
    obtain ⟨f, hf⟩ : ∃ f, data.length = f + 1 :=
      ⟨data.length - 1, by have := List.length_pos.mpr hne; omega⟩
    unfold send_command
    rw [hf]
    simp only [sendChunksGo, if_neg hne]
    rw [if_neg (fun hc => by omega : ¬ (64 < f + 1 ∧ 64 < data.length)),
      if_neg (by omega : ¬ 64 < f + 1)]
    rw [List.take_of_length_le hlen, List.drop_eq_nil_of_le hlen,
      sendChunksGo_nil]
  refine ⟨?_, ?_, ?_, ?_⟩
  · intro data c hc
    exact sendChunksGo_mem_length data.length data data.length c hc
  · intro data h
    exact sendChunksGo_heads data.length data data.length le_rfl
      (by intro hh; subst hh; simp at h) h
  · intro data h
    have hlen : (send_command data).length = 3 := by
      calc (send_command data).length = (data.length + 63) / 64 :=
            sendChunksGo_length data.length data data.length le_rfl
        _ = 3 := by rw [h]
    refine ⟨hlen, ?_, ?_⟩
    · calc (send_command data).map (fun c => c.headD 0)
          = List.replicate ((data.length + 63) / 64 - 1) 130 ++ [2] :=
            sendChunksGo_heads data.length data data.length le_rfl
              (by intro hh; subst hh; simp at h) (by omega)
        _ = [130, 130, 2] := by rw [h]; decide
    · have hall : ∀ x ∈ (send_command data).map List.length, x = 64 := by
        intro x hx
        rcases List.mem_map.mp hx with ⟨c, hc, rfl⟩
        exact sendChunksGo_mem_length data.length data data.length c hc
      have hrep := List.eq_replicate_of_mem hall
      rw [hrep]
      simp [hlen]
  · intro data hne hlen
    refine ⟨hsmall data hne hlen, ?_⟩
    cases data with
    | nil => exact absurd rfl hne
    | cons a t => rfl

/-- Witness for c5_send_chunking: a 130-byte payload splits into exactly 3
chunks. -/
theorem c5_send_chunking_witness :
    (send_command (List.replicate 130 7)).length = 3 :=
  (c5_send_chunking.2.2.1 (List.replicate 130 7) (by simp)).1

/-- Helper: the poll loop only ever appends to its accumulator; the recorded
identifiers are produced in poll order with duplicates preserved. -/
theorem pollLoop_shift : ∀ (n : Nat) (st : DevState) (acc : List (List Nat)),
    pollLoop n st acc = (acc ++ (pollLoop n st []).1, (pollLoop n st []).2) := by
  intro n
  induction n with
  | zero => intro st acc; simp [pollLoop]
  | succ n ih =>
    intro st acc
    rcases hs : sendCmdSt followupCmd st with ⟨r1, st1⟩
    cases r1 with
    | error e => simp [pollLoop, hs]
    | ok u =>
      rcases hr : read_response_st st1 with ⟨r2, st2⟩
      cases r2 with
      | error e => simp [pollLoop, hs, hr]
      | ok resp =>
        by_cases hlen : 5 ≤ resp.length
        · by_cases hsent : shortHex resp ≠ sentinelCodes
          · simp only [pollLoop, hs, hr, if_pos hlen, if_pos hsent]
            rw [ih st2 (acc ++ [shortHex resp]), ih st2 ([] ++ [shortHex resp])]
            simp [List.append_assoc]
          · simp only [pollLoop, hs, hr, if_pos hlen, if_neg hsent]
            rw [ih st2 acc]
        · simp [pollLoop, hs, hr, hlen]

/-- Helper: the poll loop attempts at most n polls. -/
theorem pollLoop_count_le : ∀ (n : Nat) (st : DevState) (acc : List (List Nat)),
    (pollLoop n st acc).2.2 ≤ n := by
  intro n
  induction n with
  | zero => intro st acc; simp [pollLoop]
  | succ n ih =>
    intro st acc
    rcases hs : sendCmdSt followupCmd st with ⟨r1, st1⟩
    cases r1 with
    | error e => simp [pollLoop, hs]
    | ok u =>
      rcases hr : read_response_st st1 with ⟨r2, st2⟩
      cases r2 with
      | error e => simp [pollLoop, hs, hr]
      | ok resp =>
        by_cases hlen : 5 ≤ resp.length
        · simp only [pollLoop, hs, hr, if_pos hlen]
          have := ih st2 (if shortHex resp ≠ sentinelCodes
            then acc ++ [shortHex resp] else acc)
          split_ifs at this ⊢ <;> omega
        · simp [pollLoop, hs, hr, hlen]

/-- C7 (counterexample): the sentinel string compared against in the poll
loop has 47 characters, not 49 as the claim states. -/
theorem c7_counterexample :
    sentinelCodes.length = 47 ∧ sentinelCodes.length ≠ 49 := by decide

/-- C7 (amended): each poll response of at least 5 bytes is hex encoded and
truncated to its first 47 characters (kept whole when shorter); the result is
recorded iff it differs from the 47-character sentinel string; identifiers
are appended in poll order with duplicates preserved; at most 10 polls follow
the start command; and the canonical always-sentinel device yields an empty
sequence after exactly 10 polls. -/
theorem c7_inventory_scan :
    (∀ resp : List Nat,
      (47 ≤ (hexEncode resp).length →
        shortHex resp = (hexEncode resp).take 47) ∧
      ((hexEncode resp).length < 47 → shortHex resp = hexEncode resp)) ∧
    (∀ (n : Nat) (st : DevState) acc u st1 (resp : List Nat) st2,
      sendCmdSt followupCmd st = (Except.ok u, st1) →
      read_response_st st1 = (Except.ok resp, st2) → 5 ≤ resp.length →
      shortHex resp = sentinelCodes →
      (pollLoop (n + 1) st acc).1 = (pollLoop n st2 acc).1) ∧
    (∀ (n : Nat) (st : DevState) acc u st1 (resp : List Nat) st2,
      sendCmdSt followupCmd st = (Except.ok u, st1) →
      read_response_st st1 = (Except.ok resp, st2) → 5 ≤ resp.length →
      shortHex resp ≠ sentinelCodes →
      (pollLoop (n + 1) st acc).1 =
        (pollLoop n st2 (acc ++ [shortHex resp])).1) ∧
    (∀ (n : Nat) (st : DevState) (acc : List (List Nat)),
      (pollLoop n st acc).1 = acc ++ (pollLoop n st []).1) ∧
    (∀ st : DevState, (get_epc_list_raw st).2.2 ≤ 10) ∧
    ((get_epc_list_raw sentinelDevice).1 = Except.ok [] ∧
      (get_epc_list_raw sentinelDevice).2.2 = 10) := by
  refine ⟨?_, ?_, ?_, ?_, ?_, ?_⟩
  · intro resp
    constructor
    · intro h
      simp [shortHex, if_pos h]
    · intro h
      simp [shortHex]
      omega
  · intro n st acc u st1 resp st2 hs hr hlen hsent
    simp [pollLoop, hs, hr, if_pos hlen, hsent]
  · intro n st acc u st1 resp st2 hs hr hlen hsent
    simp [pollLoop, hs, hr, if_pos hlen, hsent]
  · intro n st acc
    rw [pollLoop_shift n st acc]
  · intro st
    rcases hs : sendCmdSt startCmd st with ⟨r1, st1⟩
    cases r1 with
    | error e => simp [get_epc_list_raw, hs]
    | ok u =>
      rcases hr : read_response_st st1 with ⟨r2, st2⟩
      cases r2 with
      | error e => simp [get_epc_list_raw, hs, hr]
      | ok r =>
        simp only [get_epc_list_raw, hs, hr]
        exact pollLoop_count_le 10 st2 []
  · exact ⟨by decide, by decide⟩

/-- Witness for c7_inventory_scan: one poll with a five-byte non-sentinel
response records exactly its truncated hex encoding. -/
theorem c7_inventory_scan_witness :
    (pollLoop 1 ⟨[Except.ok 64], [ReadEvent.ok [1, 2, 3, 4, 5] false]⟩ []).1 =
      (pollLoop 0 ⟨[], []⟩ (([] : List (List Nat)) ++ [shortHex [1, 2, 3, 4, 5]])).1 :=
  c7_inventory_scan.2.2.1 0 ⟨[Except.ok 64], [ReadEvent.ok [1, 2, 3, 4, 5] false]⟩
    [] () ⟨[], [ReadEvent.ok [1, 2, 3, 4, 5] false]⟩ [1, 2, 3, 4, 5] ⟨[], []⟩
    (by decide) (by decide) (by decide) (by decide)

/-- C8: a failed follow-up send, a poll read error, or a short poll response
stops the scan and yields the identifiers accumulated so far as a success,
while a failure while sending the start command or reading its
acknowledgement propagates as an error. -/
theorem c8_inventory_error_policy :
    (∀ (n : Nat) (st : DevState) acc e st1,
      sendCmdSt followupCmd st = (Except.error e, st1) →
      (pollLoop (n + 1) st acc).1 = acc) ∧
    (∀ (n : Nat) (st : DevState) acc u st1 e st2,
      sendCmdSt followupCmd st = (Except.ok u, st1) →
      read_response_st st1 = (Except.error e, st2) →
      (pollLoop (n + 1) st acc).1 = acc) ∧
    (∀ (n : Nat) (st : DevState) acc u st1 (resp : List Nat) st2,
      sendCmdSt followupCmd st = (Except.ok u, st1) →
      read_response_st st1 = (Except.ok resp, st2) → resp.length < 5 →
      (pollLoop (n + 1) st acc).1 = acc) ∧
    (∀ (st : DevState) e st1, sendCmdSt startCmd st = (Except.error e, st1) →
      (get_epc_list_raw st).1 = Except.error e) ∧
    (∀ (st : DevState) u st1 e st2,
      sendCmdSt startCmd st = (Except.ok u, st1) →
      read_response_st st1 = (Except.error e, st2) →
      (get_epc_list_raw st).1 = Except.error e) ∧
    (∀ (st : DevState) u st1 (r : List Nat) st2,
      sendCmdSt startCmd st = (Except.ok u, st1) →
      read_response_st st1 = (Except.ok r, st2) →
      (get_epc_list_raw st).1 = Except.ok ((pollLoop 10 st2 []).1)) := by
  refine ⟨?_, ?_, ?_, ?_, ?_, ?_⟩
  · intro n st acc e st1 hs
    simp [pollLoop, hs]
  · intro n st acc u st1 e st2 hs hr
    simp [pollLoop, hs, hr]
  · intro n st acc u st1 resp st2 hs hr hlen
    simp [pollLoop, hs, hr, if_neg (by omega : ¬ 5 ≤ resp.length)]
  · intro st e st1 hs
    simp [get_epc_list_raw, hs]
  · intro st u st1 e st2 hs hr
    simp [get_epc_list_raw, hs, hr]
  · intro st u st1 r st2 hs hr
    simp [get_epc_list_raw, hs, hr]

/-- Witness for c8_inventory_error_policy: a device whose very first write
times out makes the whole inventory call fail with Timeout. -/
theorem c8_inventory_error_policy_witness :
    (get_epc_list_raw ⟨[Except.error UhfError.Timeout], []⟩).1 =
      Except.error UhfError.Timeout :=
  c8_inventory_error_policy.2.2.2.1 ⟨[Except.error UhfError.Timeout], []⟩
    UhfError.Timeout ⟨[], []⟩ (by decide)
